import Mathlib

/-!
Shallow embedding of the pysofe finite-element evaluation engine.

Sources embedded here:
- pysofe/elements/simple/lagrange.py  (class P1: linear Lagrange basis)
- pysofe/spaces/space.py              (class FESpace: quadrature data,
                                       global derivatives, DOF evaluation)
- pysofe_light/meshes/mesh.py         (class Mesh: construction, boundary)

Numpy arrays are modelled as total functions from indices to rationals
together with explicit shape data; numpy broadcasting steps are embedded
axis by axis following the source expressions.  Python exceptions become
an explicit error type threaded through Except.
-/

namespace Pysofe

/-- A batch of local points on the reference element, stored the way the
source keeps them: shape nD x nP, row i holding the i-th coordinate of
every point (points.shape == (nD, nP)). -/
structure PointBatch where
  nD : ℕ
  nP : ℕ
  coord : ℕ → ℕ → ℚ

/-- The numpy size of a point batch (total number of array elements). -/
def PointBatch.size (pts : PointBatch) : ℕ := pts.nD * pts.nP

/-- A 2-axis array: shape data plus an entry function. -/
structure Arr2 where
  rows : ℕ
  cols : ℕ
  entry : ℕ → ℕ → ℚ

/-- A 3-axis array. -/
structure Arr3 where
  n1 : ℕ
  n2 : ℕ
  n3 : ℕ
  entry : ℕ → ℕ → ℕ → ℚ

/-- A 4-axis array. -/
structure Arr4 where
  n1 : ℕ
  n2 : ℕ
  n3 : ℕ
  n4 : ℕ
  entry : ℕ → ℕ → ℕ → ℕ → ℚ

/-- A 5-axis array. -/
structure Arr5 where
  n1 : ℕ
  n2 : ℕ
  n3 : ℕ
  n4 : ℕ
  n5 : ℕ
  entry : ℕ → ℕ → ℕ → ℕ → ℕ → ℚ

/-- The errors the embedded code can signal.  The spec's abstract error
taxonomy maps onto the concrete Python exceptions as follows:
InvalidDimension is the AssertionError from the mesh dimension assert,
InvalidArgument is the ValueError raised for an unsupported derivative
order, NotSupported is NotImplementedError, and nameError is the Python
NameError that escapes from eval_dofs when the message of its final
raise statement references the undefined name d. -/
inductive Err where
  | invalidDimension
  | invalidArgument
  | notSupported
  | nameError
deriving DecidableEq

/-! ### P1 element (pysofe/elements/simple/lagrange.py) -/

/-- The linear Lagrange element P1, parameterized by its spatial
dimension as in the source constructor. -/
structure P1 where
  dimension : ℕ

/-- From the source: n_basis = (1, 2, 3, 4)[:(dimension+1)]. -/
def P1.n_basis (el : P1) : List ℕ := [1, 2, 3, 4].take (el.dimension + 1)

/-- From the source: n_verts = (1, 2, 3, 4)[:(dimension+1)]. -/
def P1.n_verts (el : P1) : List ℕ := [1, 2, 3, 4].take (el.dimension + 1)

/-- From the source: _dof_tuple = (1, 0, 0, 0)[:(dimension+1)]. -/
def P1.dof_tuple (el : P1) : List ℕ := [1, 0, 0, 0].take (el.dimension + 1)

/-- Embedding of P1._eval_d0basis: with (nD, nP) = points.shape and
nB = n_basis[nD], the result is the (nB x nP) array built from zeros by
setting row 0 to 1 - points.sum(axis=0) and row i+1 to points[i] for
each i < nD. -/
def P1.eval_d0basis (el : P1) (points : PointBatch) : Arr2 :=
  let nD := points.nD
  let nB := el.n_basis.getD nD 0
  { rows := nB
    cols := points.nP
    entry := fun b p =>
      if b = 0 then 1 - ∑ i ∈ Finset.range nD, points.coord i p
      else if b - 1 < nD then points.coord (b - 1) p
      else 0 }

/-- Embedding of P1._eval_d1basis: the (nB x nP x nD) array built from
zeros by setting basis[0] to the constant -1 and basis[i+1, :, i] to 1
for each i < nD. -/
def P1.eval_d1basis (el : P1) (points : PointBatch) : Arr3 :=
  let nD := points.nD
  let nB := el.n_basis.getD nD 0
  { n1 := nB
    n2 := points.nP
    n3 := nD
    entry := fun b _p k =>
      if b = 0 then -1
      else if b - 1 < nD ∧ k = b - 1 then 1
      else 0 }

/-- Embedding of P1._eval_d2basis: the all-zero (nB x nP x nD x nD)
array (second derivatives of linear functions vanish). -/
def P1.eval_d2basis (el : P1) (points : PointBatch) : Arr4 :=
  let nD := points.nD
  let nB := el.n_basis.getD nD 0
  { n1 := nB
    n2 := points.nP
    n3 := nD
    n4 := nD
    entry := fun _ _ _ _ => 0 }

/-- Result of a local basis evaluation, one constructor per derivative
order (the arrays have different ranks). -/
inductive BasisResult where
  | d0 (a : Arr2)
  | d1 (a : Arr3)
  | d2 (a : Arr4)

/-- Modelled from the spec: the base class Element (not part of the
source slice) provides eval_basis(points, deriv), which dispatches on
deriv in {0, 1, 2} to the value / first-derivative / second-derivative
evaluators; other orders are unguarded in the source, modelled here as
none. -/
def P1.eval_basis (el : P1) (points : PointBatch) (deriv : ℕ) : Option BasisResult :=
  match deriv with
  | 0 => some (.d0 (el.eval_d0basis points))
  | 1 => some (.d1 (el.eval_d1basis points))
  | 2 => some (.d2 (el.eval_d2basis points))
  | _ => none

/-! ### Finite-element space (pysofe/spaces/space.py)

The FESpace in the source couples a mesh, a reference element and a DOF
manager.  The collaborators it queries (reference map, quadrature rule
tables, DOF manager, topology entity counts, element basis evaluators)
live outside the embedded slice, so they appear here as abstract data
fields of the structure; the methods of FESpace itself are embedded
from the source line by line. -/

/-- Abstract state of an FESpace instance: the mesh dimension, the
collaborator data the embedded methods consume (reference-map Jacobian
data per point batch, quadrature tables, entity counts, the element's
local basis evaluators, and the 1-based DOF map), all read-only. -/
structure FESpace where
  meshDim : ℕ
  nCells : ℕ
  nEntities : ℕ → ℕ
  quadPoints : ℕ → PointBatch
  quadWeights : ℕ → List ℚ
  jacobianDet : PointBatch → ℕ → ℕ → ℚ
  jacobianInv : PointBatch → ℕ → ℕ → ℕ → ℕ → ℚ
  elemBasis0 : PointBatch → ℕ → ℕ → ℚ
  elemBasis1 : PointBatch → ℕ → ℕ → ℕ → ℚ
  elemBasis2 : PointBatch → ℕ → ℕ → ℕ → ℕ → ℚ
  nBasis : ℕ → ℕ
  dofMap : ℕ → ℕ → ℕ → ℕ

/-- Embedding of FESpace.get_quadrature_data: returns the quadrature
points and weights for dimension d; when the point array is nonempty
(qpoints.size > 0) the jacobian determinants of the reference maps are
evaluated there and their absolute value is taken (integral
transformation needs the unsigned factor), otherwise (the 1d special
case) an (nE x 1) array of ones is returned. -/
def FESpace.get_quadrature_data (sp : FESpace) (d : ℕ) :
    PointBatch × List ℚ × Arr2 :=
  let qpoints := sp.quadPoints d
  let qweights := sp.quadWeights d
  let jac_dets : Arr2 :=
    if 0 < qpoints.size then
      { rows := sp.nCells
        cols := qpoints.nP
        entry := fun e p => |sp.jacobianDet qpoints e p| }
    else
      { rows := sp.nEntities d
        cols := 1
        entry := fun _ _ => 1 }
  (qpoints, qweights, jac_dets)

/-- The broadcast product inv_jac[:,None,:,:,:] * local_derivatives[None,:,:,:,None]
from eval_global_derivatives with deriv = 1: a 5-axis array indexed
(cell e, basis b, point p, reference axis k, physical axis j). -/
def d1prod (invJac : ℕ → ℕ → ℕ → ℕ → ℚ) (localD : ℕ → ℕ → ℕ → ℚ) :
    ℕ → ℕ → ℕ → ℕ → ℕ → ℚ :=
  fun e b p k j => invJac e p k j * localD b p k

/-- numpy .sum(axis=-2) on a 5-axis array whose fourth axis has the
given length: sum out the fourth index. -/
def sumAxisNeg2of5 (len : ℕ) (A : ℕ → ℕ → ℕ → ℕ → ℕ → ℚ) :
    ℕ → ℕ → ℕ → ℕ → ℚ :=
  fun i0 i1 i2 i4 => ∑ i3 ∈ Finset.range len, A i0 i1 i2 i3 i4

/-- numpy swapaxes(-2,-1) on a 4-axis array (used for the transposed
inverse Jacobian in the second-order pullback). -/
def swapLast2 (A : ℕ → ℕ → ℕ → ℕ → ℚ) : ℕ → ℕ → ℕ → ℕ → ℚ :=
  fun e p i j => A e p j i

/-- The broadcast product
inv_jac.swapaxes(-2,-1)[:,None,:,:,:,None] * local_derivatives[None,:,:,None,:,:]
from eval_global_derivatives with deriv = 2: a 6-axis array. -/
def d2prodA (invJacT : ℕ → ℕ → ℕ → ℕ → ℚ) (localD2 : ℕ → ℕ → ℕ → ℕ → ℚ) :
    ℕ → ℕ → ℕ → ℕ → ℕ → ℕ → ℚ :=
  fun e b p x y z => invJacT e p x y * localD2 b p y z

/-- numpy .sum(axis=-2) on a 6-axis array whose fifth axis has the
given length: sum out the fifth index. -/
def sumAxisNeg2of6 (len : ℕ) (A : ℕ → ℕ → ℕ → ℕ → ℕ → ℕ → ℚ) :
    ℕ → ℕ → ℕ → ℕ → ℕ → ℚ :=
  fun i0 i1 i2 i3 i5 => ∑ i4 ∈ Finset.range len, A i0 i1 i2 i3 i4 i5

/-- The broadcast product derivatives[:,:,:,:,:,None] * inv_jac[:,None,:,None,:,:]
(second contraction of the second-order pullback): a 6-axis array. -/
def d2prodB (A1 : ℕ → ℕ → ℕ → ℕ → ℕ → ℚ) (invJac : ℕ → ℕ → ℕ → ℕ → ℚ) :
    ℕ → ℕ → ℕ → ℕ → ℕ → ℕ → ℚ :=
  fun e b p x z w => A1 e b p x z * invJac e p z w

/-- Result of a global derivative evaluation: a 4-axis array for
deriv = 1, a 5-axis array for deriv = 2. -/
inductive GDResult where
  | d1 (a : Arr4)
  | d2 (a : Arr5)

/-- Embedding of FESpace.eval_global_derivatives: first the guard
raising ValueError (spec name InvalidArgument) for deriv outside
{1, 2}, then the inverse Jacobians and local derivatives are combined
by the broadcast-multiply-and-sum decompositions of the source.  The
contractions run over the reference axes, whose count is the point
dimension. -/
def FESpace.eval_global_derivatives (sp : FESpace) (points : PointBatch)
    (deriv : ℤ) : Except Err GDResult :=
  if ¬(deriv = 1 ∨ deriv = 2) then
    .error .invalidArgument
  else
    let inv_jac := sp.jacobianInv points
    if deriv = 1 then
      let local_derivatives := sp.elemBasis1 points
      .ok (.d1
        { n1 := sp.nCells
          n2 := sp.nBasis points.nD
          n3 := points.nP
          n4 := points.nD
          entry := sumAxisNeg2of5 points.nD (d1prod inv_jac local_derivatives) })
    else
      let local_derivatives := sp.elemBasis2 points
      let first := sumAxisNeg2of6 points.nD (d2prodA (swapLast2 inv_jac) local_derivatives)
      .ok (.d2
        { n1 := sp.nCells
          n2 := sp.nBasis points.nD
          n3 := points.nP
          n4 := points.nD
          n5 := points.nD
          entry := sumAxisNeg2of6 points.nD (d2prodB first inv_jac) })

/-- Result of a DOF evaluation: one scalar per entity per point for
deriv = 0, one vector per entity per point for deriv = 1. -/
inductive DofResult where
  | scalar (u : Arr2)
  | vector (u : Arr3)

/-- Embedding of FESpace.eval_dofs.  Control flow follows the source:
local = false raises NotImplementedError (spec name NotSupported); then
dim is read off the points' first axis; dim < mesh dimension together
with deriv > 0 raises NotImplementedError; then the DOF map for dim is
fetched and the coefficient values gathered (1-based indices shifted
down); deriv = 0 and deriv = 1 produce the weighted sums of the source;
any other deriv reaches a raise statement whose message is
'Invalid derivation order ({})'.format(d) with d undefined in the
function, so evaluating the message raises a Python NameError before
the NotImplementedError can be constructed - embedded as Err.nameError. -/
def FESpace.eval_dofs (sp : FESpace) (dofs : ℕ → ℚ) (points : PointBatch)
    (deriv : ℤ) (local_ : Bool) : Except Err DofResult :=
  if ¬local_ then
    .error .notSupported
  else
    let dim := points.nD
    if dim < sp.meshDim ∧ 0 < deriv then
      .error .notSupported
    else
      let dof_map := sp.dofMap dim
      let values := fun b e => dofs (dof_map b e - 1)
      if deriv = 0 then
        let basis := sp.elemBasis0 points
        .ok (.scalar
          { rows := sp.nEntities dim
            cols := points.nP
            entry := fun e p =>
              ∑ b ∈ Finset.range (sp.nBasis dim), values b e * basis b p })
      else if deriv = 1 then
        let dbasis_global := sumAxisNeg2of5 points.nD
          (d1prod (sp.jacobianInv points) (sp.elemBasis1 points))
        .ok (.vector
          { n1 := sp.nEntities dim
            n2 := points.nP
            n3 := points.nD
            entry := fun e p j =>
              ∑ b ∈ Finset.range (sp.nBasis dim), values b e * dbasis_global e b p j })
      else
        .error .nameError

/-! ### Mesh (pysofe_light/meshes/mesh.py)

The MeshGeometry / MeshTopology / ReferenceMap collaborators are outside
the embedded slice; the topology data Mesh.boundary reads (the facet
incidence array and the boundary mask over facets) appears as abstract
data, while Mesh.__init__ and Mesh.boundary themselves are embedded from
the source. -/

/-- The topology data the embedded Mesh methods consume: the vertex
incidence of the (D-1)-dimensional entities (1-based node indices, one
list per facet, as returned by topology.get_entities) and the boundary
mask over those facets (topology.get_boundary). -/
structure Topo where
  facets : List (List ℕ)
  boundaryMask : List Bool

/-- A mesh after successful construction: the inferred spatial
dimension, the node coordinate table and the topology data. -/
structure Mesh where
  dimension : ℕ
  nodes : List (List ℚ)
  topology : Topo

/-- numpy nodes.shape[1] for a (2-d, rectangular) node coordinate
table: the common row width. -/
def rowWidth (nodes : List (List ℚ)) : ℕ := (nodes.headD []).length

/-- Embedding of Mesh.__init__: the input is checked by
assert 1 <= nodes.shape[1] <= 3 (spec name InvalidDimension) and on
success the mesh dimension is set to nodes.shape[1]; building the
geometry/topology/reference-map collaborators is delegated, so the
already-built topology data is passed through. -/
def Mesh.init (nodes : List (List ℚ)) (topo : Topo) : Except Err Mesh :=
  if 1 ≤ rowWidth nodes ∧ rowWidth nodes ≤ 3 then
    .ok { dimension := rowWidth nodes, nodes := nodes, topology := topo }
  else
    .error .invalidDimension

/-- numpy compress(mask, arr, axis=0): keep the rows at the positions
where the mask is true, in order. -/
def compress {α : Type} : List Bool → List α → List α
  | [], _ => []
  | _, [] => []
  | b :: bs, x :: xs => if b then x :: compress bs xs else compress bs xs

/-- The centroid of a facet: facet_vertex_coordinates.mean(axis=1),
i.e. for each spatial axis j the average over the facet's vertices of
the j-th coordinate of that vertex (vertex indices are 1-based). -/
def centroid (dim : ℕ) (nodes : List (List ℚ)) (facet : List ℕ) : List ℚ :=
  (List.range dim).map
    (fun j => (facet.map (fun v => (nodes.getD (v - 1) []).getD j 0)).sum
      / (facet.length : ℚ))

/-- The fancy-indexed assignment
boundary_mask[boundary_mask] = logical_and(boundary_mask[boundary_mask], part_mask):
walk the mask and replace each true entry by the conjunction of itself
with the next entry of the part mask. -/
def scatterMask : List Bool → List Bool → List Bool
  | [], _ => []
  | b :: bs, ps =>
    if b then (b && ps.headD false) :: scatterMask bs ps.tail
    else b :: scatterMask bs ps

/-- The centroids of the boundary facets of a mesh, in facet order:
compress the facet incidence with the boundary mask, then take the
vertex-coordinate average of each remaining facet. -/
def Mesh.boundaryCentroids (m : Mesh) : List (List ℚ) :=
  (compress m.topology.boundaryMask m.topology.facets).map
    (centroid m.dimension m.nodes)

/-- Embedding of Mesh.boundary: without a predicate the topology's
boundary mask is returned unchanged; with a predicate, the centroids of
the boundary facets are computed, the predicate is applied to each
centroid (the vectorized call and the per-centroid fallback loop of the
source produce the same per-centroid booleans), and the resulting part
mask is intersected into the boundary mask at the true positions. -/
def Mesh.boundary (m : Mesh) (fnc : Option (List ℚ → Bool)) : List Bool :=
  let boundary_mask := m.topology.boundaryMask
  match fnc with
  | none => boundary_mask
  | some f =>
    let part_mask := (m.boundaryCentroids).map f
    scatterMask boundary_mask part_mask

/-! ### Concrete instances used to instantiate the theorems -/

/-- A concrete point batch: two coordinates, one point, all coordinates
equal to 1/3 (an interior point of the reference triangle). -/
def pointsW : PointBatch where
  nD := 2
  nP := 1
  coord := fun _ _ => (1 : ℚ) / 3

/-- A concrete finite-element space: mesh dimension 2, one cell, a
constant negative raw Jacobian determinant (an inverted cell), constant
inverse Jacobian and basis data. -/
def spaceW : FESpace where
  meshDim := 2
  nCells := 1
  nEntities := fun _ => 1
  quadPoints := fun d => { nD := d, nP := 1, coord := fun _ _ => (1 : ℚ) / 3 }
  quadWeights := fun _ => [1]
  jacobianDet := fun _ _ _ => -2
  jacobianInv := fun _ _ _ _ _ => 1
  elemBasis0 := fun _ _ _ => 1
  elemBasis1 := fun _ _ _ _ => 1
  elemBasis2 := fun _ _ _ _ _ => 0
  nBasis := fun d => d + 1
  dofMap := fun _ _ _ => 1

/-- A concrete P1 element of dimension 2. -/
def elW : P1 where
  dimension := 2

/-- A concrete DOF coefficient vector (all ones). -/
def dofsW : ℕ → ℚ := fun _ => 1

/-- Node table of the unit square (width 2). -/
def nodesSquareW : List (List ℚ) := [[0, 0], [1, 0], [0, 1], [1, 1]]

/-- Node table with row width 5 (invalid spatial dimension). -/
def nodesWideW : List (List ℚ) := [[0, 0, 0, 0, 0]]

/-- Topology data of the unit square split into two triangles: the five
edges and the boundary mask marking the four outer ones. -/
def topoSquareW : Topo where
  facets := [[1, 2], [1, 3], [2, 3], [2, 4], [3, 4]]
  boundaryMask := [true, true, false, true, true]

/-- The unit-square mesh assembled from the data above. -/
def meshSquareW : Mesh where
  dimension := 2
  nodes := nodesSquareW
  topology := topoSquareW

/-- A boundary predicate: the first centroid coordinate is at most 1. -/
def predFW : List ℚ → Bool := fun c => decide (c.getD 0 0 ≤ 1)

/-- A second boundary predicate, constantly true; it agrees with predFW
on every boundary centroid of meshSquareW but not on every list. -/
def predGW : List ℚ → Bool := fun _ => true

/-! ### Helper lemmas -/

/-- With nD at most the element dimension and the element dimension at
most 3, the tuple lookup n_basis[nD] of the P1 element yields nD + 1. -/
lemma n_basis_getD (el : P1) (nD : ℕ) (h1 : nD ≤ el.dimension)
    (h3 : el.dimension ≤ 3) : el.n_basis.getD nD 0 = nD + 1 := by
  obtain ⟨d⟩ := el
  simp only [P1.n_basis] at *
  interval_cases d <;> interval_cases nD <;> rfl

/-- A position where the scattered mask is true was already true in the
original mask: the fancy-indexed assignment only rewrites positions
selected by the mask itself. -/
lemma scatterMask_getD_true : ∀ (mask ps : List Bool) (i : ℕ),
    (scatterMask mask ps).getD i false = true → mask.getD i false = true := by
  intro mask
  induction mask with
  | nil => intro ps i h; simp [scatterMask] at h
  | cons b bs ih =>
    intro ps i h
    cases b with
    | true =>
      cases i with
      | zero => rfl
      | succ n =>
        simp only [scatterMask, if_true] at h
        exact ih ps.tail n (by simpa using h)
    | false =>
      cases i with
      | zero => simp [scatterMask] at h
      | succ n =>
        simp only [scatterMask, if_false] at h
        exact ih ps n (by simpa using h)

/-! ### Claim theorems -/

/-- C1: for every finite-element space and every batch of local points,
eval_global_derivatives with deriv = 1 returns a cells x basis x points
x dim array whose entry at (cell e, basis b, point p, physical axis j)
equals the sum over reference axes k of the (k, j) entry of the inverse
Jacobian of cell e at point p times the k-th component of the local
first derivative of basis b at point p. -/
theorem eval_global_derivatives_first_order_pullback (sp : FESpace)
    (points : PointBatch) :
    sp.eval_global_derivatives points 1 = .ok (.d1
      { n1 := sp.nCells
        n2 := sp.nBasis points.nD
        n3 := points.nP
        n4 := points.nD
        entry := fun e b p j => ∑ k ∈ Finset.range points.nD,
          sp.jacobianInv points e p k j * sp.elemBasis1 points b p k }) := by
  rfl

/-- C2: whenever the quadrature rule for dimension d has a nonempty
point array, every entry of the Jacobian-determinant array returned by
get_quadrature_data d is the absolute value of the raw signed
determinant for that cell and point, hence non-negative even for
inverted cells. -/
theorem get_quadrature_data_abs_jacobian (sp : FESpace) (d : ℕ)
    (hsz : 0 < (sp.quadPoints d).size) :
    (sp.get_quadrature_data d).2.2.rows = sp.nCells ∧
    (sp.get_quadrature_data d).2.2.cols = (sp.quadPoints d).nP ∧
    ∀ e p, (sp.get_quadrature_data d).2.2.entry e p
        = |sp.jacobianDet (sp.quadPoints d) e p| ∧
      0 ≤ (sp.get_quadrature_data d).2.2.entry e p := by
  refine ⟨by simp [FESpace.get_quadrature_data, hsz],
    by simp [FESpace.get_quadrature_data, hsz], ?_⟩
  intro e p
  constructor
  · simp [FESpace.get_quadrature_data, hsz]
  · simp only [FESpace.get_quadrature_data, hsz, if_pos]
    exact abs_nonneg _

/-- C2 witness: on the concrete space with raw determinant -2 and the
nonempty quadrature point array of dimension 2, the theorem applies. -/
theorem get_quadrature_data_abs_jacobian_witness :
    0 < (spaceW.quadPoints 2).size ∧
    ((spaceW.get_quadrature_data 2).2.2.rows = spaceW.nCells ∧
    (spaceW.get_quadrature_data 2).2.2.cols = (spaceW.quadPoints 2).nP ∧
    ∀ e p, (spaceW.get_quadrature_data 2).2.2.entry e p
        = |spaceW.jacobianDet (spaceW.quadPoints 2) e p| ∧
      0 ≤ (spaceW.get_quadrature_data 2).2.2.entry e p) :=
  ⟨by decide, get_quadrature_data_abs_jacobian spaceW 2 (by decide)⟩

/-- C3: eval_global_derivatives signals the invalid-argument error
exactly for derivative orders outside {1, 2}; the guard is the first
statement of the method, so no computation precedes it, and for orders
1 and 2 no such error is produced. -/
theorem eval_global_derivatives_invalid_deriv (sp : FESpace)
    (points : PointBatch) (deriv : ℤ) :
    sp.eval_global_derivatives points deriv = .error .invalidArgument ↔
      ¬(deriv = 1 ∨ deriv = 2) := by
  by_cases h : deriv = 1 ∨ deriv = 2
  · rcases h with h1 | h2 <;> subst_vars <;>
      simp [FESpace.eval_global_derivatives]
  · simp [FESpace.eval_global_derivatives, h]

/-- C4: eval_dofs signals the not-supported error exactly when it is
called with local = false, or when the dimension implied by the points'
shape is strictly below the mesh dimension while a derivative of
positive order is requested. -/
theorem eval_dofs_not_supported_iff (sp : FESpace) (dofs : ℕ → ℚ)
    (points : PointBatch) (deriv : ℤ) (local_ : Bool) :
    sp.eval_dofs dofs points deriv local_ = .error .notSupported ↔
      (local_ = false ∨ (points.nD < sp.meshDim ∧ 0 < deriv)) := by
  cases local_ with
  | false => simp [FESpace.eval_dofs]
  | true =>
    by_cases hc : points.nD < sp.meshDim ∧ 0 < deriv
    · simp [FESpace.eval_dofs, hc]
    · by_cases h0 : deriv = 0
      · subst h0; simp [FESpace.eval_dofs, hc]
      · by_cases h1 : deriv = 1
        · subst h1; simp [FESpace.eval_dofs, hc]
        · simp [FESpace.eval_dofs, hc, h0, h1]

/-- C5: for the P1 element and a batch of points of dimension nD with
0 < nD and nD at most the element dimension, eval_basis with deriv = 0
yields the n_basis[nD] = nD + 1 by nP array whose row 0 is one minus
the coordinate sum and whose row i + 1 is the i-th coordinate. -/
theorem p1_d0basis_values (el : P1) (points : PointBatch)
    (h0 : 0 < points.nD) (h1 : points.nD ≤ el.dimension)
    (h3 : el.dimension ≤ 3) :
    el.eval_basis points 0 = some (.d0 (el.eval_d0basis points)) ∧
    (el.eval_d0basis points).rows = points.nD + 1 ∧
    (el.eval_d0basis points).cols = points.nP ∧
    (∀ p, (el.eval_d0basis points).entry 0 p
        = 1 - ∑ i ∈ Finset.range points.nD, points.coord i p) ∧
    (∀ i < points.nD, ∀ p,
      (el.eval_d0basis points).entry (i + 1) p = points.coord i p) := by
  refine ⟨rfl, ?_, rfl, fun p => rfl, ?_⟩
  · exact n_basis_getD el points.nD h1 h3
  · intro i hi p
    simp [P1.eval_d0basis, hi]

/-- C5 witness: the theorem applies to the dimension-2 element and the
point batch of dimension 2. -/
theorem p1_d0basis_values_witness :
    (0 < pointsW.nD ∧ pointsW.nD ≤ elW.dimension ∧ elW.dimension ≤ 3) ∧
    (elW.eval_basis pointsW 0 = some (.d0 (elW.eval_d0basis pointsW)) ∧
    (elW.eval_d0basis pointsW).rows = pointsW.nD + 1 ∧
    (elW.eval_d0basis pointsW).cols = pointsW.nP ∧
    (∀ p, (elW.eval_d0basis pointsW).entry 0 p
        = 1 - ∑ i ∈ Finset.range pointsW.nD, pointsW.coord i p) ∧
    (∀ i < pointsW.nD, ∀ p,
      (elW.eval_d0basis pointsW).entry (i + 1) p = pointsW.coord i p)) :=
  ⟨⟨by decide, by decide, by decide⟩,
    p1_d0basis_values elW pointsW (by decide) (by decide) (by decide)⟩

/-- C6: partition of unity: for every dimension in {1, 2, 3} and every
point of the reference simplex, the P1 basis values returned by
eval_basis with deriv = 0 sum to one at that point. -/
theorem p1_partition_of_unity (el : P1) (points : PointBatch)
    (hmem : points.nD = 1 ∨ points.nD = 2 ∨ points.nD = 3)
    (h1 : points.nD ≤ el.dimension) (h3 : el.dimension ≤ 3)
    (p : ℕ) (hp : p < points.nP)
    (hsimplex : (∀ i < points.nD, 0 ≤ points.coord i p) ∧
      (∑ i ∈ Finset.range points.nD, points.coord i p) ≤ 1) :
    el.eval_basis points 0 = some (.d0 (el.eval_d0basis points)) ∧
    ∑ b ∈ Finset.range ((el.eval_d0basis points).rows),
      (el.eval_d0basis points).entry b p = 1 := by
  refine ⟨rfl, ?_⟩
  have hrows : (el.eval_d0basis points).rows = points.nD + 1 :=
    n_basis_getD el points.nD h1 h3
  rw [hrows, Finset.sum_range_succ']
  have hrest : ∀ i ∈ Finset.range points.nD,
      (el.eval_d0basis points).entry (i + 1) p = points.coord i p := by
    intro i hi
    simp [P1.eval_d0basis, Finset.mem_range.mp hi]
  rw [Finset.sum_congr rfl hrest]
  simp [P1.eval_d0basis]

/-- C6 witness: the theorem applies to the dimension-2 element at the
interior point (1/3, 1/3) of the reference triangle. -/
theorem p1_partition_of_unity_witness :
    ((pointsW.nD = 1 ∨ pointsW.nD = 2 ∨ pointsW.nD = 3) ∧
      pointsW.nD ≤ elW.dimension ∧ elW.dimension ≤ 3 ∧ 0 < pointsW.nP ∧
      (∀ i < pointsW.nD, 0 ≤ pointsW.coord i 0) ∧
      (∑ i ∈ Finset.range pointsW.nD, pointsW.coord i 0) ≤ 1) ∧
    (elW.eval_basis pointsW 0 = some (.d0 (elW.eval_d0basis pointsW)) ∧
    ∑ b ∈ Finset.range ((elW.eval_d0basis pointsW).rows),
      (elW.eval_d0basis pointsW).entry b 0 = 1) :=
  ⟨⟨by decide, by decide, by decide, by decide,
      by intro i _; norm_num [pointsW],
      by norm_num [pointsW, Finset.sum_range_succ]⟩,
    p1_partition_of_unity elW pointsW (by decide) (by decide) (by decide)
      0 (by decide)
      ⟨by intro i _; norm_num [pointsW],
        by norm_num [pointsW, Finset.sum_range_succ]⟩⟩

/-- C7: for every dimension in {1, 2, 3}, the P1 first-derivative
evaluator returns the constant all-minus-one vector for basis 0 and the
i-th unit vector for basis i + 1 at every point, so the first
derivatives of all basis functions sum to the zero vector. -/
theorem p1_d1basis_gradients (el : P1) (points : PointBatch)
    (hmem : points.nD = 1 ∨ points.nD = 2 ∨ points.nD = 3)
    (h1 : points.nD ≤ el.dimension) (h3 : el.dimension ≤ 3) :
    el.eval_basis points 1 = some (.d1 (el.eval_d1basis points)) ∧
    (∀ p k, k < points.nD → (el.eval_d1basis points).entry 0 p k = -1) ∧
    (∀ i < points.nD, ∀ p k, k < points.nD →
      (el.eval_d1basis points).entry (i + 1) p k
        = if k = i then 1 else 0) ∧
    (∀ p k, k < points.nD →
      ∑ b ∈ Finset.range ((el.eval_d1basis points).n1),
        (el.eval_d1basis points).entry b p k = 0) := by
  refine ⟨rfl, fun p k hk => rfl, ?_, ?_⟩
  · intro i hi p k hk
    simp [P1.eval_d1basis, hi]
  · intro p k hk
    have hrows : (el.eval_d1basis points).n1 = points.nD + 1 :=
      n_basis_getD el points.nD h1 h3
    rw [hrows, Finset.sum_range_succ']
    have hrest : ∀ i ∈ Finset.range points.nD,
        (el.eval_d1basis points).entry (i + 1) p k
          = if k = i then (1 : ℚ) else 0 := by
      intro i hi
      simp [P1.eval_d1basis, Finset.mem_range.mp hi]
    rw [Finset.sum_congr rfl hrest, Finset.sum_ite_eq]
    simp [P1.eval_d1basis, Finset.mem_range.mpr hk]

/-- C7 witness: the theorem applies to the dimension-2 element and the
point batch of dimension 2. -/
theorem p1_d1basis_gradients_witness :
    ((pointsW.nD = 1 ∨ pointsW.nD = 2 ∨ pointsW.nD = 3) ∧
      pointsW.nD ≤ elW.dimension ∧ elW.dimension ≤ 3) ∧
    (elW.eval_basis pointsW 1 = some (.d1 (elW.eval_d1basis pointsW)) ∧
    (∀ p k, k < pointsW.nD → (elW.eval_d1basis pointsW).entry 0 p k = -1) ∧
    (∀ i < pointsW.nD, ∀ p k, k < pointsW.nD →
      (elW.eval_d1basis pointsW).entry (i + 1) p k
        = if k = i then 1 else 0) ∧
    (∀ p k, k < pointsW.nD →
      ∑ b ∈ Finset.range ((elW.eval_d1basis pointsW).n1),
        (elW.eval_d1basis pointsW).entry b p k = 0)) :=
  ⟨⟨by decide, by decide, by decide⟩,
    p1_d1basis_gradients elW pointsW (by decide) (by decide) (by decide)⟩

/-- C8: constructing a mesh from a node table whose row width is
outside {1, 2, 3} fails with the invalid-dimension error, and for row
widths 1 to 3 construction succeeds with the mesh dimension equal to
the row width. -/
theorem mesh_init_dimension_check (nodes : List (List ℚ)) (topo : Topo) :
    (¬(1 ≤ rowWidth nodes ∧ rowWidth nodes ≤ 3) →
      Mesh.init nodes topo = .error .invalidDimension) ∧
    ((1 ≤ rowWidth nodes ∧ rowWidth nodes ≤ 3) →
      ∃ m, Mesh.init nodes topo = .ok m ∧ m.dimension = rowWidth nodes) := by
  constructor
  · intro h; simp [Mesh.init, h]
  · intro h
    refine ⟨Mesh.mk (rowWidth nodes) nodes topo, ?_, rfl⟩
    simp [Mesh.init, h]

/-- C8 witness: a width-5 node table is rejected with the
invalid-dimension error and the width-2 unit-square table is accepted
with mesh dimension 2. -/
theorem mesh_init_dimension_check_witness :
    (¬(1 ≤ rowWidth nodesWideW ∧ rowWidth nodesWideW ≤ 3) ∧
      Mesh.init nodesWideW topoSquareW = .error .invalidDimension) ∧
    ((1 ≤ rowWidth nodesSquareW ∧ rowWidth nodesSquareW ≤ 3) ∧
      ∃ m, Mesh.init nodesSquareW topoSquareW = .ok m ∧
        m.dimension = rowWidth nodesSquareW) :=
  ⟨⟨by decide, (mesh_init_dimension_check nodesWideW topoSquareW).1 (by decide)⟩,
    ⟨by decide, (mesh_init_dimension_check nodesSquareW topoSquareW).2 (by decide)⟩⟩

/-- C9: the mask returned by Mesh.boundary with a predicate is true
only at positions where the predicate-free boundary mask is true, and
the predicate influences the result only through its values on the
centroids (vertex-coordinate averages) of the boundary facets: two
predicates agreeing there give identical masks. -/
theorem boundary_predicate_intersection (m : Mesh) (f g : List ℚ → Bool)
    (hagree : ∀ c ∈ m.boundaryCentroids, f c = g c) :
    (∀ i, (m.boundary (some f)).getD i false = true →
      (m.boundary none).getD i false = true) ∧
    m.boundary (some f) = m.boundary (some g) := by
  constructor
  · intro i h
    exact scatterMask_getD_true _ _ i h
  · show scatterMask m.topology.boundaryMask (m.boundaryCentroids.map f)
      = scatterMask m.topology.boundaryMask (m.boundaryCentroids.map g)
    rw [List.map_congr_left hagree]

/-- C9 witness: on the unit-square mesh the two concrete predicates
agree on all four boundary centroids, so the theorem applies. -/
theorem boundary_predicate_intersection_witness :
    (∀ c ∈ meshSquareW.boundaryCentroids, predFW c = predGW c) ∧
    ((∀ i, (meshSquareW.boundary (some predFW)).getD i false = true →
      (meshSquareW.boundary none).getD i false = true) ∧
    meshSquareW.boundary (some predFW) = meshSquareW.boundary (some predGW)) :=
  ⟨by
      norm_num [Mesh.boundaryCentroids, meshSquareW, topoSquareW, nodesSquareW,
        compress, centroid, predFW, predGW, List.getD]
      ,
    boundary_predicate_intersection meshSquareW predFW predGW (by
      norm_num [Mesh.boundaryCentroids, meshSquareW, topoSquareW, nodesSquareW,
        compress, centroid, predFW, predGW, List.getD])⟩

/-- C10: calling eval_dofs with local points of the mesh dimension and
a derivative order outside {0, 1} fails, but with the name-resolution
error escaping from the message of the final raise statement (which
references the undefined name d), not with the documented
invalid-argument or not-supported error. -/
theorem eval_dofs_name_error_bug (sp : FESpace) (dofs : ℕ → ℚ)
    (points : PointBatch) (deriv : ℤ) (hdim : points.nD = sp.meshDim)
    (h0 : deriv ≠ 0) (h1 : deriv ≠ 1) :
    sp.eval_dofs dofs points deriv true = .error .nameError ∧
    sp.eval_dofs dofs points deriv true ≠ .error .invalidArgument ∧
    sp.eval_dofs dofs points deriv true ≠ .error .notSupported := by
  have h : sp.eval_dofs dofs points deriv true = .error .nameError := by
    simp [FESpace.eval_dofs, hdim, h0, h1]
  exact ⟨h, by rw [h]; simp, by rw [h]; simp⟩

/-- C10 witness: the concrete space, point batch of matching dimension
and derivative order 2 exhibit the escaping name error. -/
theorem eval_dofs_name_error_bug_witness :
    (pointsW.nD = spaceW.meshDim ∧ (2 : ℤ) ≠ 0 ∧ (2 : ℤ) ≠ 1) ∧
    (spaceW.eval_dofs dofsW pointsW 2 true = .error .nameError ∧
    spaceW.eval_dofs dofsW pointsW 2 true ≠ .error .invalidArgument ∧
    spaceW.eval_dofs dofsW pointsW 2 true ≠ .error .notSupported) :=
  ⟨⟨by decide, by decide, by decide⟩,
    eval_dofs_name_error_bug spaceW dofsW pointsW 2 (by decide)
      (by decide) (by decide)⟩

end Pysofe
